import Mathlib

/-!
Verification of the Test Progression & Scoring Engine of the virtualtest
backend.  The definitions below are a shallow embedding of the Python
sources: `app/services/ai_service.py` (scoring and CEFR aggregation),
`app/routers/test.py` (session/module endpoints), `app/repositories/
test_repository.py` (persistence operations), `app/models/admin_settings.py`
(time-limit configuration) and `app/routers/auth.py` (OTP cache handling).
Python floats are modelled as exact rationals, database tables as lists of
records, and the external AI provider, speech-to-text service and clock as
explicit parameters.
-/

namespace VirtualTest

/-! ## Scoring: AIEngineService.evaluate_response (ai_service.py) -/

/-- ASCII upper-casing of one character, modelling Python `str.upper()` on
the ASCII fragment. -/
def upperChar (c : Char) : Char :=
  if 97 ≤ c.toNat ∧ c.toNat ≤ 122 then Char.ofNat (c.toNat - 32) else c

/-- ASCII lower-casing of one character, modelling Python `str.lower()` on
the ASCII fragment. -/
def lowerChar (c : Char) : Char :=
  if 65 ≤ c.toNat ∧ c.toNat ≤ 90 then Char.ofNat (c.toNat + 32) else c

/-- Python `str.strip()` on a character list: remove leading and trailing
whitespace. -/
def stripChars (cs : List Char) : List Char :=
  ((cs.dropWhile Char.isWhitespace).reverse.dropWhile Char.isWhitespace).reverse

/-- Python `str.lower()` (ASCII fragment), used by
`TestResultRepository.save_score` on the stored module name. -/
def lowerString (s : String) : String := ⟨s.data.map lowerChar⟩

/-- Answer normalisation used by the objective branch of
`AIEngineService.evaluate_response`: Python `str(x).strip().upper()`. -/
def normalizeAnswer (s : String) : String := ⟨(stripChars s.data).map upperChar⟩

/-- The accumulation loop of the Reading/Listening branch of
`evaluate_response`: position `i` contributes `weights[i]` exactly when
`i < len(user_answers)` and the normalised answers agree; positions with no
learner answer count as mismatches. -/
def matchedWeight : List String → List String → List ℚ → ℚ
  | _, [], _ => 0
  | _, _ :: _, [] => 0
  | [], _ :: _, _ :: _ => 0
  | u :: us, c :: cs, w :: ws =>
      (if normalizeAnswer u = normalizeAnswer c then w else 0) + matchedWeight us cs ws

/-- Rounding to 2 decimal places, modelling Python `round(x, 2)` on the
exact rational value of the score. -/
def round2 (q : ℚ) : ℚ := ((round (q * 100) : ℤ) : ℚ) / 100

/-- The Reading/Listening branch of `AIEngineService.evaluate_response`:
empty expected answers give 0.0; a missing (`none`), empty or
length-mismatched weight list falls back to uniform weight 1 per question;
otherwise the matched weight over the total weight, times 100, rounded to
2 decimal places (and 0.0 when the total weight is not positive). -/
def evaluateObjective (userAnswers correctAnswers : List String)
    (weights : Option (List ℚ)) : ℚ :=
  if correctAnswers = [] then 0
  else
    let ws :=
      match weights with
      | none => List.replicate correctAnswers.length 1
      | some w =>
          if w = [] ∨ w.length ≠ correctAnswers.length then
            List.replicate correctAnswers.length 1
          else w
    let maxPossible := ws.sum
    if 0 < maxPossible then
      round2 (matchedWeight userAnswers correctAnswers ws / maxPossible * 100)
    else 0

/-! ## Subjective scoring: float parsing (Writing/Speaking branch) -/

/-- Value of a list of decimal digit characters. -/
def digitsToNat (cs : List Char) : Nat :=
  cs.foldl (fun acc c => acc * 10 + (c.toNat - 48)) 0

/-- Consume an optional leading sign; `true` means negative. -/
def parseSignB : List Char → Bool × List Char
  | '+' :: cs => (false, cs)
  | '-' :: cs => (true, cs)
  | cs => (false, cs)

/-- The digits of a parsed decimal float literal: mantissa sign, integer
part, fractional part with its digit count, exponent sign and magnitude. -/
structure FloatLit where
  negMantissa : Bool
  intPart : Nat
  fracPart : Nat
  fracLen : Nat
  negExp : Bool
  expMag : Nat
deriving Repr, DecidableEq

/-- Parse the mantissa of a float literal: `digits`, `digits.digits?` or
`.digits`, returning the integer part, fractional part and fractional digit
count together with the unconsumed suffix. -/
def parseMantissaLit (cs : List Char) : Option ((Nat × Nat × Nat) × List Char) :=
  let ip := cs.takeWhile Char.isDigit
  let rest := cs.dropWhile Char.isDigit
  match rest with
  | '.' :: rest2 =>
      let fp := rest2.takeWhile Char.isDigit
      let rest3 := rest2.dropWhile Char.isDigit
      if ip = [] ∧ fp = [] then none
      else some ((digitsToNat ip, digitsToNat fp, fp.length), rest3)
  | _ => if ip = [] then none else some ((digitsToNat ip, 0, 0), rest)

/-- Parse the optional exponent part `e`/`E`, optional sign, digits; the
whole remaining input must be consumed.  Returns the sign and magnitude. -/
def parseExpPart : List Char → Option (Bool × Nat)
  | [] => some (false, 0)
  | c :: cs =>
      if c = 'e' ∨ c = 'E' then
        let (neg, cs1) := parseSignB cs
        let ds := cs1.takeWhile Char.isDigit
        let rest := cs1.dropWhile Char.isDigit
        if ds ≠ [] ∧ rest = [] then some (neg, digitsToNat ds) else none
      else none

/-- Parse a decimal float literal from a character list: optional sign,
mantissa, optional exponent. -/
def parseFloatLit? (cs : List Char) : Option FloatLit :=
  let (neg, cs1) := parseSignB cs
  match parseMantissaLit cs1 with
  | none => none
  | some ((ip, fp, fl), rest) =>
      match parseExpPart rest with
      | none => none
      | some (negE, e) => some ⟨neg, ip, fp, fl, negE, e⟩

/-- The rational value denoted by a parsed float literal. -/
def FloatLit.toRat (f : FloatLit) : ℚ :=
  let m : ℚ := (f.intPart : ℚ) + (f.fracPart : ℚ) / 10 ^ f.fracLen
  let v : ℚ := if f.negExp then m / 10 ^ f.expMag else m * 10 ^ f.expMag
  if f.negMantissa then -v else v

/-- Python `float(s)` on finite decimal literals (the shape the provider is
prompted to return): leading/trailing whitespace is stripped, then an
optionally signed decimal literal with optional exponent is parsed; `none`
when the string cannot be parsed.  Special floats (`inf`, `nan`) and digit
underscores are outside the modelled fragment. -/
def parseFloat? (s : String) : Option ℚ :=
  (parseFloatLit? (stripChars s.data)).map FloatLit.toRat

/-- The Writing/Speaking branch of `AIEngineService.evaluate_response`:
`float(response.text.strip())` inside a `try` block whose handler returns
0.0.  A raw provider output that parses as a number is returned as-is; a
malformed one degrades to 0.0. -/
def evaluateSubjective (rawOutput : String) : ℚ :=
  match parseFloat? rawOutput with
  | some v => v
  | none => 0

/-! ## CEFR bucketing: AIEngineService.calculate_overall_cefr -/

/-- `AIEngineService.calculate_overall_cefr`: the step function on the
average of the given scores; an empty list maps to "A1". -/
def calculateOverallCefr (scores : List ℚ) : String :=
  if scores = [] then "A1"
  else
    let avg := scores.sum / (scores.length : ℚ)
    if 90 ≤ avg then "C2"
    else if 80 ≤ avg then "C1"
    else if 65 ≤ avg then "B2"
    else if 50 ≤ avg then "B1"
    else if 35 ≤ avg then "A2"
    else "A1"

/-! ## Data model: test_sessions and module_scores tables -/

/-- A row of the `test_sessions` table (models/test_session.py): owner,
completion flag, optional completion timestamp (modelled as an abstract
tick), optional overall score and optional overall CEFR level.  The start
timestamp plays no role in the verified properties and is omitted; rows
are kept in creation order, which models ordering by `start_date`. -/
structure SessionRec where
  sid : Nat
  studentId : Nat
  isCompleted : Bool
  completionDate : Option Nat
  overallScore : Option ℚ
  overallCefrLevel : Option String
deriving Repr, DecidableEq

/-- A row of the `module_scores` table (models/module_score.py), restricted
to the fields the verified properties read.  There is no uniqueness
constraint on `(sessionId, moduleName)`. -/
structure ScoreRec where
  sessionId : Nat
  moduleName : String
  score : ℚ
  cefrLevel : String
deriving Repr, DecidableEq

/-- The persistence store: both tables plus the autoincrement counter for
session ids.  Lists are in insertion order. -/
structure Store where
  sessions : List SessionRec
  scores : List ScoreRec
  nextSessionId : Nat
deriving Repr, DecidableEq

/-- `TestResultRepository.get_session`: lookup by primary key. -/
def getSession (db : Store) (sid : Nat) : Option SessionRec :=
  db.sessions.find? (fun s => s.sid == sid)

/-- The incomplete sessions of a student, most recent first (the
`order_by(start_date.desc())` of `get_active_session`). -/
def activeSessions (db : Store) (uid : Nat) : List SessionRec :=
  (db.sessions.filter fun s => s.studentId == uid && !s.isCompleted).reverse

/-- `TestResultRepository.get_active_session`: `scalar_one_or_none` on the
incomplete sessions of the student; more than one row raises
`MultipleResultsFound`, which surfaces as a server error (500). -/
def getActiveSession (db : Store) (uid : Nat) : Except Nat (Option SessionRec) :=
  match activeSessions db uid with
  | [] => Except.ok none
  | [s] => Except.ok (some s)
  | _ :: _ :: _ => Except.error 500

/-- `TestResultRepository.get_completed_modules`: the `module_name` column
of all `module_scores` rows of the session, duplicates included. -/
def getCompletedModules (db : Store) (sid : Nat) : List String :=
  (db.scores.filter fun r => r.sessionId == sid).map (fun r => r.moduleName)

/-- `TestResultRepository.save_score`: unconditionally insert a new
`module_scores` row, lower-casing the module name.  There is no duplicate
check. -/
def saveScore (db : Store) (sid : Nat) (moduleName : String) (score : ℚ)
    (cefrLevel : String) : Store :=
  { db with scores := db.scores ++ [⟨sid, lowerString moduleName, score, cefrLevel⟩] }

/-- `TestResultRepository.get_scores` for a fixed session: the dict keyed
by `module_name`, built row by row so that a later duplicate row overwrites
the value while keeping the first-occurrence key order. -/
def scoresDict (db : Store) (sid : Nat) : List (String × ℚ) :=
  (db.scores.filter fun r => r.sessionId == sid).foldl
    (fun acc r =>
      if acc.any (fun p => p.1 == r.moduleName) then
        acc.map (fun p => if p.1 == r.moduleName then (p.1, r.score) else p)
      else acc ++ [(r.moduleName, r.score)])
    []

/-- The record update `save_final_result` applies to the finalized
session: the completion flag, completion timestamp, overall score and
overall CEFR level are all set in this one update. -/
def finalizeSession (now : Nat) (overallScore : ℚ) (cefrLevel : String)
    (s : SessionRec) : SessionRec :=
  { s with
    isCompleted := true
    completionDate := some now
    overallScore := some overallScore
    overallCefrLevel := some cefrLevel }

/-- `TestResultRepository.save_final_result`: one update setting the
completion flag, completion timestamp, overall score and overall CEFR level
of the session together. -/
def saveFinalResult (db : Store) (sid : Nat) (now : Nat) (overallScore : ℚ)
    (cefrLevel : String) : Store :=
  { db with
    sessions := db.sessions.map fun s =>
      if s.sid == sid then finalizeSession now overallScore cefrLevel s else s }

/-- `TestResultRepository.create_session`: append a fresh incomplete
session for the student. -/
def createSession (db : Store) (uid : Nat) : SessionRec × Store :=
  (⟨db.nextSessionId, uid, false, none, none, none⟩,
   { db with
     sessions := db.sessions ++ [⟨db.nextSessionId, uid, false, none, none, none⟩]
     nextSessionId := db.nextSessionId + 1 })

/-! ## Router helpers and endpoints (routers/test.py) -/

/-- The fixed module list of `get_remaining_modules` in routers/test.py. -/
def allModules : List String := ["reading", "listening", "speaking", "writing"]

/-- `get_remaining_modules`: the fixed ordered module list minus the
completed ones, order preserving. -/
def getRemainingModules (completed : List String) : List String :=
  allModules.filter (fun m => !completed.contains m)

/-- `get_next_module`: first remaining module, or none. -/
def getNextModule (completed : List String) : Option String :=
  (getRemainingModules completed).head?

/-- The response body of `POST /test/start`. -/
structure StartResult where
  sid : Nat
  isCompleted : Bool
  completedModules : List String
  remainingModules : List String
deriving Repr, DecidableEq

/-- `start_test` (routers/test.py): return the student's active session if
one exists, otherwise create a fresh one with zero completed modules.  The
store is returned alongside the response; error codes model the raised
HTTP exceptions. -/
def startTest (db : Store) (uid : Nat) : Except Nat StartResult × Store :=
  match getActiveSession db uid with
  | Except.error code => (Except.error code, db)
  | Except.ok (some s) =>
      (Except.ok
        ⟨s.sid, s.isCompleted, getCompletedModules db s.sid,
          getRemainingModules (getCompletedModules db s.sid)⟩, db)
  | Except.ok none =>
      let p := createSession db uid
      (Except.ok ⟨p.1.sid, false, [], allModules⟩, p.2)

/-- The per-module time limits of the `admin_settings` table
(models/admin_settings.py), in seconds. -/
structure AdminSettingsRec where
  readingTimeLimit : ℤ
  listeningTimeLimit : ℤ
  writingTimeLimit : ℤ
  speakingTimeLimit : ℤ
deriving Repr, DecidableEq

/-- The column defaults of the `AdminSettings` model: reading 1200 s,
listening 840 s, writing 2400 s, speaking 180 s. -/
def defaultAdminSettings : AdminSettingsRec := ⟨1200, 840, 2400, 180⟩

/-- The time-limit selection of `start_module`: a flat default of 1200 s,
replaced by the per-module column of the active `AdminSettings` row when
one exists. -/
def moduleTimeLimit (config : Option AdminSettingsRec) (moduleName : String) : ℤ :=
  match config with
  | none => 1200
  | some c =>
      if moduleName == "reading" then c.readingTimeLimit
      else if moduleName == "listening" then c.listeningTimeLimit
      else if moduleName == "writing" then c.writingTimeLimit
      else if moduleName == "speaking" then c.speakingTimeLimit
      else 1200

/-- The response body of `POST /test/module/start`: the generated content
is summarised by the time limit attached to it. -/
structure ModuleStartReply where
  sid : Nat
  moduleName : String
  cefrLevel : String
  timeLimit : ℤ
deriving Repr, DecidableEq

/-- `start_module` (routers/test.py): 404 when the session is missing or
not owned by the caller, 400 when the session is completed or the module
already has a recorded score, 500 when content generation fails; otherwise
the reply carries the selected time limit.  `config` is the active
`AdminSettings` row, `contentGenerated` whether the provider returned a
non-empty content object.  No store write happens on any path. -/
def startModule (db : Store) (uid sid : Nat) (moduleName : String)
    (cefrLevel : Option String) (config : Option AdminSettingsRec)
    (contentGenerated : Bool) : Except Nat ModuleStartReply × Store :=
  match getSession db sid with
  | none => (Except.error 404, db)
  | some s =>
      if s.studentId ≠ uid then (Except.error 404, db)
      else if s.isCompleted then (Except.error 400, db)
      else if (getCompletedModules db sid).contains moduleName then (Except.error 400, db)
      else
        let cefr := match cefrLevel with
          | none => "B1"
          | some c => if c = "" then "B1" else c
        let tl := moduleTimeLimit config moduleName
        if contentGenerated = false then (Except.error 500, db)
        else (Except.ok ⟨sid, moduleName, cefr, tl⟩, db)

/-- The response body of `POST /test/module/submit` and
`POST /test/module/speaking/upload`. -/
structure SubmitResult where
  sid : Nat
  moduleName : String
  score : ℚ
  cefrLevel : String
  isTestCompleted : Bool
  nextModule : Option String
  overallScore : Option ℚ
  overallCefrLevel : Option String
deriving Repr, DecidableEq

/-- The list `all_scores` of the finalization path of `submit_module`: the
per-module values of the `get_scores` dict of the session. -/
def sessionScoreValues (db : Store) (sid : Nat) : List ℚ :=
  (scoresDict db sid).map (fun p => p.2)

/-- The overall score of the finalization path:
`sum(all_scores) / len(all_scores)`. -/
def sessionAverage (db : Store) (sid : Nat) : ℚ :=
  (sessionScoreValues db sid).sum / ((sessionScoreValues db sid).length : ℚ)

/-- The shared tail of `submit_module` and `upload_speaking` after their
checks: save the score, recount the completed modules, and when the count
reaches 4 compute the average of the per-module scores (from the
`get_scores` dict) and persist the final result in one update. -/
def recordScore (db : Store) (sid : Nat) (moduleName : String) (score : ℚ)
    (now : Nat) : SubmitResult × Store :=
  let cefr := calculateOverallCefr [score]
  let db1 := saveScore db sid moduleName score cefr
  let completed := getCompletedModules db1 sid
  if 4 ≤ completed.length then
    (⟨sid, moduleName, score, cefr, true, getNextModule completed,
        some (sessionAverage db1 sid),
        some (calculateOverallCefr (sessionScoreValues db1 sid))⟩,
      saveFinalResult db1 sid now (sessionAverage db1 sid)
        (calculateOverallCefr (sessionScoreValues db1 sid)))
  else
    (⟨sid, moduleName, score, cefr, false, getNextModule completed, none, none⟩, db1)

/-- `submit_module` (routers/test.py): 404 when the session is missing or
not owned by the caller; otherwise the evaluation result `score` (the value
`ai_service.evaluate_response` returns for the payload, see
`evaluateObjective` and `evaluateSubjective`) is recorded through
`recordScore`.  There is no check that the module already has a score. -/
def submitModule (db : Store) (uid sid : Nat) (moduleName : String) (score : ℚ)
    (now : Nat) : Except Nat SubmitResult × Store :=
  match getSession db sid with
  | none => (Except.error 404, db)
  | some s =>
      if s.studentId ≠ uid then (Except.error 404, db)
      else
        let p := recordScore db sid moduleName score now
        (Except.ok p.1, p.2)

/-- `upload_speaking` (routers/test.py): 404 when the session is missing or
not owned; 400 when the uploaded audio is empty; 400 when the transcript
returned by `stt_service.transcribe` is the empty string (the transcription
failure signal) — in that case nothing is evaluated or written.  Otherwise
the provider's rating of the transcript is parsed by the Writing/Speaking
branch of `evaluate_response` and recorded for module "speaking".
`providerRating` maps a transcript to the provider's raw rating output. -/
def uploadSpeaking (db : Store) (uid sid : Nat) (audioData : List Nat)
    (transcript : String) (providerRating : String → String) (now : Nat) :
    Except Nat SubmitResult × Store :=
  match getSession db sid with
  | none => (Except.error 404, db)
  | some s =>
      if s.studentId ≠ uid then (Except.error 404, db)
      else if audioData = [] then (Except.error 400, db)
      else if transcript = "" then (Except.error 400, db)
      else
        let p := recordScore db sid "speaking"
          (evaluateSubjective (providerRating transcript)) now
        (Except.ok p.1, p.2)

/-! ## OTP cache and registration (routers/auth.py) -/

/-- The OTP cache store (the Redis client of routers/auth.py): key/value
pairs; expiry is enforced by the store itself and is modelled as keys
disappearing from the list. -/
abbrev Cache := List (String × String)

/-- `r.get`. -/
def cacheGet (r : Cache) (k : String) : Option String :=
  (r.find? (fun p => p.1 == k)).map (fun p => p.2)

/-- `r.delete`. -/
def cacheDelete (r : Cache) (k : String) : Cache :=
  r.filter (fun p => p.1 != k)

/-- The user table rows relevant to registration: id and email. -/
structure UserRec where
  uid : Nat
  email : String
deriving Repr, DecidableEq

/-- The state touched by the registration flow: the user table with its
autoincrement counter and the OTP cache. -/
structure AuthState where
  users : List UserRec
  nextUserId : Nat
  cache : Cache
deriving Repr, DecidableEq

/-- `verify_otp` (routers/auth.py): read `otp:<email>` from the cache; 400
when the key is missing (never requested, or expired) or the codes differ.
The endpoint performs no cache write, so the cache comes back unchanged. -/
def verifyOtp (r : Cache) (email code : String) : Except Nat String × Cache :=
  match cacheGet r ("otp:" ++ email) with
  | none => (Except.error 400, r)
  | some stored =>
      if stored ≠ code then (Except.error 400, r)
      else (Except.ok "Code verified.", r)

/-- `register` (routers/auth.py): check the stored code one last time (400
on missing or mismatched code), create the user, then delete the used code
from the cache. -/
def registerUser (st : AuthState) (email otpCode : String) :
    Except Nat Nat × AuthState :=
  match cacheGet st.cache ("otp:" ++ email) with
  | none => (Except.error 400, st)
  | some stored =>
      if stored ≠ otpCode then (Except.error 400, st)
      else
        (Except.ok st.nextUserId,
         { users := st.users ++ [⟨st.nextUserId, email⟩]
           nextUserId := st.nextUserId + 1
           cache := cacheDelete st.cache ("otp:" ++ email) })

/-! ## Concrete stores used to exercise the endpoints -/

/-- A store holding one fresh incomplete session (id 1, student 7) and no
module scores. -/
def freshStore : Store := ⟨[⟨1, 7, false, none, none, none⟩], [], 2⟩

/-- One submission step of the module "reading" with score 50 by student 7
on session 1, as `submit_module` performs it. -/
def submitReadingStep (db : Store) : Store :=
  (submitModule db 7 1 "reading" 50 0).2

/-- The store reached from `freshStore` by four consecutive submissions of
the module "reading" — each one accepted because `submit_module` has no
duplicate check. -/
def fourReadingsStore : Store :=
  submitReadingStep (submitReadingStep (submitReadingStep (submitReadingStep freshStore)))

/-- A store in which session 1 already has a recorded score for the module
"reading". -/
def oneReadingStore : Store :=
  ⟨[⟨1, 7, false, none, none, none⟩], [⟨1, "reading", 80, "C1"⟩], 2⟩

/-- A store in which session 1 has recorded scores for reading, listening
and speaking, so that one more module completes it. -/
def threeModulesStore : Store :=
  ⟨[⟨1, 7, false, none, none, none⟩],
   [⟨1, "reading", 60, "B1"⟩, ⟨1, "listening", 60, "B1"⟩, ⟨1, "speaking", 60, "B1"⟩], 2⟩

/-! ## Helper lemmas -/

@[simp] theorem matchedWeight_correct_nil (u : List String) (w : List ℚ) :
    matchedWeight u [] w = 0 := by
  cases u <;> cases w <;> rfl

@[simp] theorem matchedWeight_weights_nil (u : List String) (c0 : String)
    (cs : List String) : matchedWeight u (c0 :: cs) [] = 0 := by
  cases u <;> rfl

@[simp] theorem matchedWeight_user_nil (c0 : String) (cs : List String) (w0 : ℚ)
    (ws : List ℚ) : matchedWeight [] (c0 :: cs) (w0 :: ws) = 0 := rfl

@[simp] theorem matchedWeight_cons (u0 : String) (us : List String) (c0 : String)
    (cs : List String) (w0 : ℚ) (ws : List ℚ) :
    matchedWeight (u0 :: us) (c0 :: cs) (w0 :: ws)
      = (if normalizeAnswer u0 = normalizeAnswer c0 then w0 else 0)
        + matchedWeight us cs ws := rfl

theorem matchedWeight_nonneg (c : List String) :
    ∀ (u : List String) (w : List ℚ), (∀ x ∈ w, 0 ≤ x) →
      0 ≤ matchedWeight u c w := by
  induction c with
  | nil => intro u w _; simp
  | cons c0 cs ih =>
      intro u w hw
      cases w with
      | nil => simp
      | cons w0 ws =>
          cases u with
          | nil => simp
          | cons u0 us =>
              have h0 : 0 ≤ w0 := hw w0 (by simp)
              have hrec := ih us ws (fun x hx => hw x (by simp [hx]))
              have hif : (0:ℚ) ≤ if normalizeAnswer u0 = normalizeAnswer c0 then w0 else 0 := by
                split
                · exact h0
                · exact le_refl 0
              simp only [matchedWeight_cons]
              linarith

theorem matchedWeight_le_sum (c : List String) :
    ∀ (u : List String) (w : List ℚ), (∀ x ∈ w, 0 ≤ x) →
      matchedWeight u c w ≤ w.sum := by
  induction c with
  | nil => intro u w hw; simpa using List.sum_nonneg hw
  | cons c0 cs ih =>
      intro u w hw
      cases w with
      | nil => simp
      | cons w0 ws =>
          have h0 : 0 ≤ w0 := hw w0 (by simp)
          have hsum : 0 ≤ ws.sum := List.sum_nonneg (fun x hx => hw x (by simp [hx]))
          cases u with
          | nil => simp only [matchedWeight_user_nil, List.sum_cons]; linarith
          | cons u0 us =>
              have hrec := ih us ws (fun x hx => hw x (by simp [hx]))
              have hif : (if normalizeAnswer u0 = normalizeAnswer c0 then w0 else 0) ≤ w0 := by
                split
                · exact le_refl w0
                · exact h0
              simp only [matchedWeight_cons, List.sum_cons]
              linarith

theorem round2_nonneg {q : ℚ} (hq : 0 ≤ q) : 0 ≤ round2 q := by
  have h1 : q * 100 - 1/2 < ((round (q * 100) : ℤ) : ℚ) := sub_half_lt_round (q * 100)
  have h2 : (-1 : ℚ) < ((round (q * 100) : ℤ) : ℚ) := by linarith
  have h3 : (-1 : ℤ) < round (q * 100) := by exact_mod_cast h2
  have h4 : (0 : ℤ) ≤ round (q * 100) := by omega
  have h5 : (0 : ℚ) ≤ ((round (q * 100) : ℤ) : ℚ) := by exact_mod_cast h4
  unfold round2
  linarith

theorem round2_le_100 {q : ℚ} (hq : q ≤ 100) : round2 q ≤ 100 := by
  have h1 : ((round (q * 100) : ℤ) : ℚ) ≤ q * 100 + 1/2 := round_le_add_half (q * 100)
  have h2 : ((round (q * 100) : ℤ) : ℚ) < 10001 := by linarith
  have h3 : (round (q * 100) : ℤ) < 10001 := by exact_mod_cast h2
  have h4 : (round (q * 100) : ℤ) ≤ 10000 := by omega
  have h5 : ((round (q * 100) : ℤ) : ℚ) ≤ 10000 := by exact_mod_cast h4
  unfold round2
  linarith

/-- The score produced by the objective branch, for any effective weight
list with non-negative entries, lies in the interval 0 to 100. -/
theorem objective_score_bounds (u c : List String) (ws : List ℚ)
    (hw : ∀ x ∈ ws, 0 ≤ x) (hpos : 0 < ws.sum) :
    0 ≤ round2 (matchedWeight u c ws / ws.sum * 100)
    ∧ round2 (matchedWeight u c ws / ws.sum * 100) ≤ 100 := by
  have hm0 : 0 ≤ matchedWeight u c ws := matchedWeight_nonneg c u ws hw
  have hm1 : matchedWeight u c ws ≤ ws.sum := matchedWeight_le_sum c u ws hw
  have hq0 : 0 ≤ matchedWeight u c ws / ws.sum * 100 := by positivity
  have hq1 : matchedWeight u c ws / ws.sum * 100 ≤ 100 := by
    have h := div_le_one_of_le₀ hm1 (le_of_lt hpos)
    nlinarith
  exact ⟨round2_nonneg hq0, round2_le_100 hq1⟩

/-! ## C1: objective evaluation matches the reference formula -/

/-- C1: For an objective submission the evaluation returns the reference
score: an empty expected-answer list gives 0; a missing or
length-mismatched weight list falls back to uniform weight 1 per question;
otherwise the score is 100 times the matched weight over the total weight,
rounded to 2 decimal places; and for non-negative weights the score lies
between 0 and 100. -/
theorem evaluateObjective_matches_reference (userAnswers correctAnswers : List String) :
    (∀ w, evaluateObjective userAnswers [] w = 0)
    ∧ (correctAnswers ≠ [] →
        evaluateObjective userAnswers correctAnswers none
          = round2 (100 * matchedWeight userAnswers correctAnswers
                (List.replicate correctAnswers.length 1)
              / (List.replicate correctAnswers.length (1:ℚ)).sum))
    ∧ (∀ w : List ℚ, w.length ≠ correctAnswers.length →
        evaluateObjective userAnswers correctAnswers (some w)
          = evaluateObjective userAnswers correctAnswers none)
    ∧ (∀ w : List ℚ, correctAnswers ≠ [] → w.length = correctAnswers.length →
        0 < w.sum →
        evaluateObjective userAnswers correctAnswers (some w)
          = round2 (100 * matchedWeight userAnswers correctAnswers w / w.sum))
    ∧ (∀ w : List ℚ, (∀ x ∈ w, 0 ≤ x) →
        0 ≤ evaluateObjective userAnswers correctAnswers (some w)
        ∧ evaluateObjective userAnswers correctAnswers (some w) ≤ 100)
    ∧ (0 ≤ evaluateObjective userAnswers correctAnswers none
        ∧ evaluateObjective userAnswers correctAnswers none ≤ 100) := by
  have huniv : ∀ (c : List String), c ≠ [] →
      evaluateObjective userAnswers c none
        = round2 (100 * matchedWeight userAnswers c (List.replicate c.length 1)
            / (List.replicate c.length (1:ℚ)).sum) := by
    intro c hc
    have hlen : (0:ℚ) < c.length := by
      have : 0 < c.length := List.length_pos.mpr hc
      exact_mod_cast this
    have hsum : (List.replicate c.length (1:ℚ)).sum = (c.length : ℚ) := by
      simp [List.sum_replicate, nsmul_eq_mul]
    simp only [evaluateObjective, if_neg hc]
    rw [hsum, if_pos hlen]
    congr 1
    field_simp
    ring
  refine ⟨?_, huniv correctAnswers, ?_, ?_, ?_, ?_⟩
  · intro w; simp [evaluateObjective]
  · intro w hw
    by_cases hc : correctAnswers = []
    · subst hc; simp [evaluateObjective]
    · have hfall : (w = [] ∨ w.length ≠ correctAnswers.length) := Or.inr hw
      simp only [evaluateObjective, if_neg hc, if_pos hfall]
  · intro w hc hlen hpos
    have hne : ¬(w = [] ∨ w.length ≠ correctAnswers.length) := by
      push_neg
      constructor
      · intro hwnil
        subst hwnil
        simp at hpos
      · exact hlen
    simp only [evaluateObjective, if_neg hc, if_neg hne, if_pos hpos]
    congr 1
    field_simp
    ring
  · intro w hwpos
    by_cases hc : correctAnswers = []
    · subst hc; simp [evaluateObjective]
    · by_cases hfall : w = [] ∨ w.length ≠ correctAnswers.length
      · -- uniform fallback weights
        have hlen : (0:ℚ) < ((List.replicate correctAnswers.length (1:ℚ)).sum) := by
          have h1 : 0 < correctAnswers.length := List.length_pos.mpr hc
          simp [List.sum_replicate, nsmul_eq_mul]
          exact_mod_cast h1
        have hb := objective_score_bounds userAnswers correctAnswers
          (List.replicate correctAnswers.length 1)
          (fun x hx => by rw [List.eq_of_mem_replicate hx]; norm_num) hlen
        simp only [evaluateObjective, if_neg hc, if_pos hfall, if_pos hlen]
        exact hb
      · have hsum0 : 0 ≤ w.sum := List.sum_nonneg hwpos
        by_cases hpos : 0 < w.sum
        · have hb := objective_score_bounds userAnswers correctAnswers w hwpos hpos
          simp only [evaluateObjective, if_neg hc, if_neg hfall, if_pos hpos]
          exact hb
        · simp only [evaluateObjective, if_neg hc, if_neg hfall, if_neg hpos]
          norm_num
  · by_cases hc : correctAnswers = []
    · subst hc; simp [evaluateObjective]
    · have hlen : (0:ℚ) < ((List.replicate correctAnswers.length (1:ℚ)).sum) := by
        have h1 : 0 < correctAnswers.length := List.length_pos.mpr hc
        simp [List.sum_replicate, nsmul_eq_mul]
        exact_mod_cast h1
      have hb := objective_score_bounds userAnswers correctAnswers
        (List.replicate correctAnswers.length 1)
        (fun x hx => by rw [List.eq_of_mem_replicate hx]; norm_num) hlen
      simp only [evaluateObjective, if_neg hc, if_pos hlen]
      exact hb

/-- C1 witness: the worked example of the spec — expected B, C, A with
weights 30, 40, 30 and learner answers b, X, a scores 60. -/
theorem evaluateObjective_matches_reference_witness :
    ([30, 40, 30] : List ℚ).length = (["B", "C", "A"] : List String).length
    ∧ (0:ℚ) < ([30, 40, 30] : List ℚ).sum
    ∧ evaluateObjective ["b", "X", "a"] ["B", "C", "A"] (some [30, 40, 30])
        = round2 (100 * matchedWeight ["b", "X", "a"] ["B", "C", "A"] [30, 40, 30]
            / ([30, 40, 30] : List ℚ).sum)
    ∧ evaluateObjective ["b", "X", "a"] ["B", "C", "A"] (some [30, 40, 30]) = 60 := by
  have h := (evaluateObjective_matches_reference ["b", "X", "a"] ["B", "C", "A"]).2.2.2.1
    [30, 40, 30] (by simp) (by simp) (by norm_num)
  refine ⟨by simp, by norm_num, h, ?_⟩
  have h1 : normalizeAnswer "b" = normalizeAnswer "B" := by decide
  have h2 : ¬ (normalizeAnswer "X" = normalizeAnswer "C") := by decide
  have h3 : normalizeAnswer "a" = normalizeAnswer "A" := by decide
  rw [h]
  simp only [matchedWeight_cons, matchedWeight_correct_nil, if_pos h1, if_neg h2, if_pos h3]
  norm_num [round2]

/-! ## C4: CEFR bucketing is the reference step function -/

/-- C4: The CEFR bucket of a score list is the step function on the
average: at least 90 gives C2, at least 80 gives C1, at least 65 gives B2,
at least 50 gives B1, at least 35 gives A2 and anything lower gives A1; an
empty list gives A1; in particular 89.9 gives C1, 90 gives C2, 49.9 gives
A2 and 50 gives B1. -/
theorem calculateOverallCefr_step_function :
    calculateOverallCefr [] = "A1"
    ∧ (∀ scores : List ℚ, scores ≠ [] →
        ((90 ≤ scores.sum / (scores.length : ℚ) →
            calculateOverallCefr scores = "C2")
        ∧ (80 ≤ scores.sum / (scores.length : ℚ) →
            scores.sum / (scores.length : ℚ) < 90 →
            calculateOverallCefr scores = "C1")
        ∧ (65 ≤ scores.sum / (scores.length : ℚ) →
            scores.sum / (scores.length : ℚ) < 80 →
            calculateOverallCefr scores = "B2")
        ∧ (50 ≤ scores.sum / (scores.length : ℚ) →
            scores.sum / (scores.length : ℚ) < 65 →
            calculateOverallCefr scores = "B1")
        ∧ (35 ≤ scores.sum / (scores.length : ℚ) →
            scores.sum / (scores.length : ℚ) < 50 →
            calculateOverallCefr scores = "A2")
        ∧ (scores.sum / (scores.length : ℚ) < 35 →
            calculateOverallCefr scores = "A1")))
    ∧ calculateOverallCefr [(899 : ℚ)/10] = "C1"
    ∧ calculateOverallCefr [(90 : ℚ)] = "C2"
    ∧ calculateOverallCefr [(499 : ℚ)/10] = "A2"
    ∧ calculateOverallCefr [(50 : ℚ)] = "B1" := by
  refine ⟨rfl, ?_, ?_, ?_, ?_, ?_⟩
  · intro scores hne
    simp only [calculateOverallCefr, if_neg hne]
    refine ⟨?_, ?_, ?_, ?_, ?_, ?_⟩
    · intro h; rw [if_pos h]
    · intro h h'; rw [if_neg (by linarith), if_pos h]
    · intro h h'; rw [if_neg (by linarith), if_neg (by linarith), if_pos h]
    · intro h h'
      rw [if_neg (by linarith), if_neg (by linarith), if_neg (by linarith), if_pos h]
    · intro h h'
      rw [if_neg (by linarith), if_neg (by linarith), if_neg (by linarith),
        if_neg (by linarith), if_pos h]
    · intro h
      rw [if_neg (by linarith), if_neg (by linarith), if_neg (by linarith),
        if_neg (by linarith), if_neg (by linarith)]
  · norm_num [calculateOverallCefr]
  · norm_num [calculateOverallCefr]
  · norm_num [calculateOverallCefr]
  · norm_num [calculateOverallCefr]

/-- C4 witness: the step function applied to a concrete singleton list. -/
theorem calculateOverallCefr_step_function_witness :
    ([(95 : ℚ)] : List ℚ) ≠ []
    ∧ (90 : ℚ) ≤ ([(95 : ℚ)] : List ℚ).sum / (([(95 : ℚ)] : List ℚ).length : ℚ)
    ∧ calculateOverallCefr [(95 : ℚ)] = "C2" := by
  refine ⟨by simp, by norm_num, ?_⟩
  exact (calculateOverallCefr_step_function.2.1 [(95 : ℚ)] (by simp)).1 (by norm_num)

/-! ## C7: subjective evaluation fails soft to 0.0 -/

/-- C7: For a subjective (Writing or Speaking) evaluation, a provider
output that cannot be parsed as a float yields 0.0 instead of an exception,
and an output that parses as a number is returned as-is with no further
adjustment. -/
theorem evaluateSubjective_soft_fail (raw : String) :
    (parseFloat? raw = none → evaluateSubjective raw = 0)
    ∧ (∀ v : ℚ, parseFloat? raw = some v → evaluateSubjective raw = v) := by
  constructor
  · intro h; simp [evaluateSubjective, h]
  · intro v h; simp [evaluateSubjective, h]

/-- C7 witness: a malformed rating degrades to 0, and the rating 85.5 is
returned exactly. -/
theorem evaluateSubjective_soft_fail_witness :
    parseFloat? "not a number" = none
    ∧ evaluateSubjective "not a number" = 0
    ∧ parseFloat? " 85.5 " = some (FloatLit.toRat ⟨false, 85, 5, 1, false, 0⟩)
    ∧ evaluateSubjective " 85.5 " = (171 : ℚ) / 2 := by
  have hn : parseFloat? "not a number" = none := by decide
  have hlit : parseFloatLit? (stripChars " 85.5 ".data)
      = some ⟨false, 85, 5, 1, false, 0⟩ := by decide
  have hs : parseFloat? " 85.5 " = some (FloatLit.toRat ⟨false, 85, 5, 1, false, 0⟩) := by
    simp [parseFloat?, hlit]
  refine ⟨hn, (evaluateSubjective_soft_fail "not a number").1 hn, hs, ?_⟩
  rw [(evaluateSubjective_soft_fail " 85.5 ").2 _ hs]
  norm_num [FloatLit.toRat]

/-! ## State-machine helper lemmas -/

theorem getCompletedModules_saveScore (db : Store) (sid : Nat) (m : String)
    (score : ℚ) (cefr : String) :
    getCompletedModules (saveScore db sid m score cefr) sid
      = getCompletedModules db sid ++ [lowerString m] := by
  simp [getCompletedModules, saveScore, List.filter_append]

theorem find?_session_update (l : List SessionRec) (sid now : Nat) (o : ℚ) (c : String) :
    (l.map fun s => if s.sid == sid then finalizeSession now o c s else s).find?
      (fun s => s.sid == sid)
      = (l.find? (fun s => s.sid == sid)).map (finalizeSession now o c) := by
  induction l with
  | nil => rfl
  | cons a t ih =>
      by_cases h : a.sid = sid
      · simp [List.find?_cons, h, finalizeSession]
      · have hb : (a.sid == sid) = false := beq_eq_false_iff_ne.mpr h
        simp only [List.map_cons, List.find?_cons, hb, Bool.false_eq_true, if_false]
        exact ih

theorem getSession_saveFinalResult (db : Store) (sid now : Nat) (o : ℚ) (c : String) :
    getSession (saveFinalResult db sid now o c) sid
      = (getSession db sid).map (finalizeSession now o c) := by
  simpa [getSession, saveFinalResult, finalizeSession] using
    find?_session_update db.sessions sid now o c

theorem recordScore_scores (db : Store) (sid : Nat) (m : String) (score : ℚ) (now : Nat) :
    (recordScore db sid m score now).2.scores
      = db.scores ++ [⟨sid, lowerString m, score, calculateOverallCefr [score]⟩] := by
  simp only [recordScore]
  split_ifs <;> rfl

theorem recordScore_completedModules (db : Store) (sid : Nat) (m : String)
    (score : ℚ) (now : Nat) :
    getCompletedModules (recordScore db sid m score now).2 sid
      = getCompletedModules db sid ++ [lowerString m] := by
  simp only [recordScore]
  split_ifs
  · exact getCompletedModules_saveScore db sid m score (calculateOverallCefr [score])
  · exact getCompletedModules_saveScore db sid m score (calculateOverallCefr [score])

theorem submitModule_eq (db : Store) (uid sid : Nat) (m : String) (score : ℚ)
    (now : Nat) (s : SessionRec) (hs : getSession db sid = some s)
    (hown : s.studentId = uid) :
    submitModule db uid sid m score now
      = (Except.ok (recordScore db sid m score now).1,
          (recordScore db sid m score now).2) := by
  unfold submitModule
  rw [hs]
  simp [hown]

theorem verifyOtp_cache_unchanged (r : Cache) (email code : String) :
    (verifyOtp r email code).2 = r := by
  unfold verifyOtp
  cases h : cacheGet r ("otp:" ++ email) with
  | none => rfl
  | some stored =>
      dsimp only
      split_ifs <;> rfl

theorem cacheGet_cacheDelete (r : Cache) (k : String) :
    cacheGet (cacheDelete r k) k = none := by
  induction r with
  | nil => rfl
  | cons p t ih =>
      by_cases h : p.1 = k
      · simp only [cacheDelete, List.filter_cons, h, bne_self_eq_false, Bool.false_eq_true,
          if_false]
        exact ih
      · simp only [cacheGet, cacheDelete, List.filter_cons, List.find?_cons, h] at ih ⊢
        simp only [show (p.1 != k) = true from by simp [h], if_true, List.find?_cons,
          show (p.1 == k) = false from by simp [h]]
        exact ih

/-! ## C5: start is an idempotent resume -/

/-- C5: When the student has an incomplete session, start returns exactly
that session and leaves the store unchanged, so two consecutive start calls
return the same session id and the same store (in particular the number of
the student's sessions does not change); only when no incomplete session
exists is a new one created, with zero completed modules. -/
theorem startTest_idempotent (db : Store) (uid : Nat) :
    (∀ s, getActiveSession db uid = Except.ok (some s) →
        startTest db uid
          = (Except.ok ⟨s.sid, s.isCompleted, getCompletedModules db s.sid,
              getRemainingModules (getCompletedModules db s.sid)⟩, db)
        ∧ (startTest (startTest db uid).2 uid).1 = (startTest db uid).1
        ∧ (startTest (startTest db uid).2 uid).2 = db)
    ∧ (getActiveSession db uid = Except.ok none →
        startTest db uid
          = (Except.ok ⟨db.nextSessionId, false, [], allModules⟩,
              ⟨db.sessions ++ [⟨db.nextSessionId, uid, false, none, none, none⟩],
                db.scores, db.nextSessionId + 1⟩)) := by
  constructor
  · intro s h
    have h1 : startTest db uid
        = (Except.ok ⟨s.sid, s.isCompleted, getCompletedModules db s.sid,
            getRemainingModules (getCompletedModules db s.sid)⟩, db) := by
      simp [startTest, h]
    have h2 : (startTest db uid).2 = db := by rw [h1]
    refine ⟨h1, ?_, ?_⟩
    · rw [h2]
    · rw [h2]; exact h2
  · intro h
    simp [startTest, h, createSession]

/-- C5 witness: on a store holding one incomplete session of student 7, two
consecutive start calls return that session and do not change the store. -/
theorem startTest_idempotent_witness :
    startTest freshStore 7
      = (Except.ok ⟨1, false, [], allModules⟩, freshStore)
    ∧ (startTest (startTest freshStore 7).2 7).1 = (startTest freshStore 7).1
    ∧ (startTest (startTest freshStore 7).2 7).2 = freshStore := by
  have h := (startTest_idempotent freshStore 7).1 ⟨1, 7, false, none, none, none⟩ rfl
  exact h

/-! ## C6: start_module rejects completed sessions and repeated modules -/

/-- C6: start_module fails with a client error (400) when the session is
already completed, and when the requested module already has a recorded
score in the session; and on every path (success included) the returned
store is the input store, so no ModuleScore is created and no session state
changes. -/
theorem startModule_rejects_repeats (db : Store) (uid sid : Nat) (m : String)
    (lvl : Option String) (config : Option AdminSettingsRec) (gen : Bool) :
    ((startModule db uid sid m lvl config gen).2 = db)
    ∧ (∀ s, getSession db sid = some s → s.studentId = uid →
        s.isCompleted = true →
        (startModule db uid sid m lvl config gen).1 = Except.error 400)
    ∧ (∀ s, getSession db sid = some s → s.studentId = uid →
        s.isCompleted = false → (getCompletedModules db sid).contains m = true →
        (startModule db uid sid m lvl config gen).1 = Except.error 400) := by
  refine ⟨?_, ?_, ?_⟩
  · unfold startModule
    cases h : getSession db sid with
    | none => rfl
    | some s =>
        dsimp only
        split_ifs <;> rfl
  · intro s hs hown hcomp
    unfold startModule
    rw [hs]
    simp [hown, hcomp]
  · intro s hs hown hcomp hmod
    have hm : m ∈ getCompletedModules db sid := by simpa using hmod
    unfold startModule
    rw [hs]
    simp [hown, hcomp, hm]

/-- C6 witness: starting "reading" on a completed session, and on a session
where "reading" already has a score, both return 400 and leave the store
untouched. -/
theorem startModule_rejects_repeats_witness :
    (startModule ⟨[⟨1, 7, true, none, none, none⟩], [], 2⟩ 7 1 "reading"
        none none true).1 = Except.error 400
    ∧ (startModule oneReadingStore 7 1 "reading" none none true).1
        = Except.error 400
    ∧ (startModule oneReadingStore 7 1 "reading" none none true).2
        = oneReadingStore := by
  refine ⟨?_, ?_, ?_⟩
  · exact (startModule_rejects_repeats ⟨[⟨1, 7, true, none, none, none⟩], [], 2⟩
      7 1 "reading" none none true).2.1 ⟨1, 7, true, none, none, none⟩ rfl rfl rfl
  · exact (startModule_rejects_repeats oneReadingStore 7 1 "reading" none none
      true).2.2 ⟨1, 7, false, none, none, none⟩ rfl rfl rfl rfl
  · exact (startModule_rejects_repeats oneReadingStore 7 1 "reading" none none true).1

/-! ## C8: empty transcript is a client error, never a stored score -/

/-- C8: When the transcription of a speaking upload returns the empty
string, the upload fails with HTTP 400 and the store is unchanged — no
ModuleScore is recorded, and the outcome does not depend on the evaluation
provider at all (the statement holds for every providerRating function). -/
theorem uploadSpeaking_empty_transcript (db : Store) (uid sid : Nat)
    (audioData : List Nat) (providerRating : String → String) (now : Nat)
    (s : SessionRec) (hs : getSession db sid = some s)
    (hown : s.studentId = uid) (ha : audioData ≠ []) :
    uploadSpeaking db uid sid audioData "" providerRating now
      = (Except.error 400, db) := by
  unfold uploadSpeaking
  rw [hs]
  simp [hown, ha]

/-- C8 witness: an upload with a non-empty audio payload whose transcript
is empty returns 400 and leaves the store unchanged. -/
theorem uploadSpeaking_empty_transcript_witness :
    getSession freshStore 1 = some ⟨1, 7, false, none, none, none⟩
    ∧ uploadSpeaking freshStore 7 1 [3] "" (fun t => t) 0
        = (Except.error 400, freshStore) :=
  ⟨rfl, uploadSpeaking_empty_transcript freshStore 7 1 [3] (fun t => t) 0
    ⟨1, 7, false, none, none, none⟩ rfl rfl (by simp)⟩

/-! ## C2: completion happens at 4 recorded rows, set atomically -/

/-- C2 counterexample: four accepted submissions of the same module
"reading" mark the session completed although listening, speaking and
writing have no recorded ModuleScore — refuting the claimed equivalence
between completion and all 4 module names being scored. -/
theorem completed_without_all_modules_cex :
    ((getSession fourReadingsStore 1).map (fun s => s.isCompleted)) = some true
    ∧ ((getCompletedModules fourReadingsStore 1).contains "listening") = false
    ∧ ((getCompletedModules fourReadingsStore 1).contains "speaking") = false
    ∧ ((getCompletedModules fourReadingsStore 1).contains "writing") = false := by
  refine ⟨?_, ?_, ?_, ?_⟩ <;> decide

/-- C2 amended: a successful submit appends one ModuleScore row, and the
session is finalized exactly when the number of rows recorded for it
(duplicates included) is at least 4; when each module name is submitted at
most once this count reaches 4 exactly when all 4 module names have a
recorded ModuleScore.  At finalization the completion flag, completion
timestamp, overall score and overall CEFR level are set together in the
one update `finalizeSession`; below 4 rows the session row is untouched. -/
theorem submitModule_finalizes_at_four_rows (db : Store) (uid sid : Nat)
    (m : String) (score : ℚ) (now : Nat) (s : SessionRec)
    (hs : getSession db sid = some s) (hown : s.studentId = uid) :
    ∀ res db', submitModule db uid sid m score now = (res, db') →
      getCompletedModules db' sid = getCompletedModules db sid ++ [lowerString m]
      ∧ (∀ r, res = Except.ok r →
          (r.isTestCompleted ↔ 4 ≤ (getCompletedModules db' sid).length))
      ∧ (4 ≤ (getCompletedModules db' sid).length →
          getSession db' sid
            = some (finalizeSession now (sessionAverage db' sid)
                (calculateOverallCefr (sessionScoreValues db' sid)) s))
      ∧ ((getCompletedModules db' sid).length < 4 → getSession db' sid = some s) := by
  intro res db' heq
  rw [submitModule_eq db uid sid m score now s hs hown] at heq
  injection heq with hres hdb
  subst hres
  subst hdb
  have hcm := recordScore_completedModules db sid m score now
  refine ⟨hcm, ?_, ?_, ?_⟩
  all_goals
    have hcond : 4 ≤ (getCompletedModules
          (saveScore db sid m score (calculateOverallCefr [score])) sid).length
        ↔ 4 ≤ (getCompletedModules (recordScore db sid m score now).2 sid).length := by
      rw [getCompletedModules_saveScore, hcm]
  · intro r hr
    injection hr with hr1
    subst hr1
    by_cases hlen : 4 ≤ (getCompletedModules (recordScore db sid m score now).2 sid).length
    · have hp := hcond.mpr hlen
      simp only [recordScore, if_pos hp]
      simpa using hp
    · have hp : ¬ 4 ≤ (getCompletedModules
          (saveScore db sid m score (calculateOverallCefr [score])) sid).length :=
        fun hh => hlen (hcond.mp hh)
      simp only [recordScore, if_neg hp]
      simpa using hp
  · intro hlen
    have hp := hcond.mpr hlen
    have hrec : (recordScore db sid m score now).2
        = saveFinalResult (saveScore db sid m score (calculateOverallCefr [score])) sid now
            (sessionAverage (saveScore db sid m score (calculateOverallCefr [score])) sid)
            (calculateOverallCefr (sessionScoreValues
              (saveScore db sid m score (calculateOverallCefr [score])) sid)) := by
      simp only [recordScore, if_pos hp]
    rw [hrec, getSession_saveFinalResult,
      show getSession (saveScore db sid m score (calculateOverallCefr [score])) sid
          = some s from hs]
    rfl
  · intro hlt
    have hp : ¬ 4 ≤ (getCompletedModules
        (saveScore db sid m score (calculateOverallCefr [score])) sid).length :=
      fun hh => absurd (hcond.mp hh) (by omega)
    have hrec : (recordScore db sid m score now).2
        = saveScore db sid m score (calculateOverallCefr [score]) := by
      simp only [recordScore, if_neg hp]
    rw [hrec]
    exact hs

/-- C2 witness: submitting the 4th distinct module on a session holding
reading, listening and speaking scores finalizes it with all completion
fields set in one update. -/
theorem submitModule_finalizes_at_four_rows_witness :
    getSession (submitModule threeModulesStore 7 1 "writing" 60 5).2 1
      = some (finalizeSession 5
          (sessionAverage (submitModule threeModulesStore 7 1 "writing" 60 5).2 1)
          (calculateOverallCefr
            (sessionScoreValues (submitModule threeModulesStore 7 1 "writing" 60 5).2 1))
          ⟨1, 7, false, none, none, none⟩) := by
  have h := submitModule_finalizes_at_four_rows threeModulesStore 7 1 "writing" 60 5
    ⟨1, 7, false, none, none, none⟩ rfl rfl
    (submitModule threeModulesStore 7 1 "writing" 60 5).1
    (submitModule threeModulesStore 7 1 "writing" 60 5).2 rfl
  exact h.2.2.1 (by decide)

/-! ## C3: submit does not reject re-submissions -/

/-- C3 counterexample: with a "reading" score already recorded for session
1, submitting "reading" again is accepted (no 4xx) and a second ModuleScore
row for the pair is stored — refuting the claimed rejection. -/
theorem resubmission_not_rejected_cex :
    ((getCompletedModules oneReadingStore 1).contains "reading") = true
    ∧ (submitModule oneReadingStore 7 1 "reading" 50 0).1
        = Except.ok (recordScore oneReadingStore 1 "reading" 50 0).1
    ∧ ((submitModule oneReadingStore 7 1 "reading" 50 0).2.scores.filter
          (fun x => x.sessionId == 1 && x.moduleName == "reading")).length = 2 := by
  refine ⟨by decide, ?_, by decide⟩
  rw [submitModule_eq oneReadingStore 7 1 "reading" 50 0
    ⟨1, 7, false, none, none, none⟩ rfl rfl]

/-- C3 amended: submit_module rejects only a missing session or one not
owned by the caller (404); a re-submission of a module that already has a
recorded ModuleScore is accepted and appends one more row for that
(session, module) pair — application-level duplicate rejection exists only
in start_module. -/
theorem submitModule_accepts_resubmission (db : Store) (uid sid : Nat)
    (m : String) (score : ℚ) (now : Nat) :
    (getSession db sid = none →
        submitModule db uid sid m score now = (Except.error 404, db))
    ∧ (∀ s, getSession db sid = some s → s.studentId ≠ uid →
        submitModule db uid sid m score now = (Except.error 404, db))
    ∧ (∀ s, getSession db sid = some s → s.studentId = uid →
        (submitModule db uid sid m score now).1
            = Except.ok (recordScore db sid m score now).1
        ∧ (submitModule db uid sid m score now).2.scores
            = db.scores ++ [⟨sid, lowerString m, score, calculateOverallCefr [score]⟩]) := by
  refine ⟨?_, ?_, ?_⟩
  · intro h
    unfold submitModule
    rw [h]
  · intro s hs hne
    unfold submitModule
    rw [hs]
    simp [hne]
  · intro s hs hown
    rw [submitModule_eq db uid sid m score now s hs hown]
    exact ⟨rfl, recordScore_scores db sid m score now⟩

/-- C3 amended witness: the acceptance branch applied to a store where the
module is already scored. -/
theorem submitModule_accepts_resubmission_witness :
    (submitModule oneReadingStore 7 1 "reading" 50 0).1
        = Except.ok (recordScore oneReadingStore 1 "reading" 50 0).1
    ∧ (submitModule oneReadingStore 7 1 "reading" 50 0).2.scores
        = oneReadingStore.scores
          ++ [⟨1, lowerString "reading", 50, calculateOverallCefr [50]⟩] :=
  (submitModule_accepts_resubmission oneReadingStore 7 1 "reading" 50 0).2.2
    ⟨1, 7, false, none, none, none⟩ rfl rfl

/-! ## C9: module time limits -/

/-- C9 counterexample: with no active AdminSettings row, a successful start
of the speaking module returns a 1200 s time limit, not the claimed
module-specific 180 s default. -/
theorem speaking_flat_default_cex :
    ((startModule freshStore 7 1 "speaking" (some "B1") none true).1).map
        (fun r => r.timeLimit) = Except.ok 1200
    ∧ ¬ ((1200 : ℤ) = 180) := by
  exact ⟨rfl, by decide⟩

/-- C9 amended: every successful start_module reply carries the selected
time limit `moduleTimeLimit config m`; with an active AdminSettings row at
the model's column defaults the limits are reading 1200 s, listening
840 s, writing 2400 s and speaking 180 s; with no active row every module
falls back to the flat default 1200 s. -/
theorem startModule_timeLimit (db : Store) (uid sid : Nat) (m : String)
    (lvl : Option String) (gen : Bool) :
    (∀ config r db', startModule db uid sid m lvl config gen = (Except.ok r, db') →
        r.timeLimit = moduleTimeLimit config m)
    ∧ moduleTimeLimit (some defaultAdminSettings) "reading" = 1200
    ∧ moduleTimeLimit (some defaultAdminSettings) "listening" = 840
    ∧ moduleTimeLimit (some defaultAdminSettings) "writing" = 2400
    ∧ moduleTimeLimit (some defaultAdminSettings) "speaking" = 180
    ∧ (∀ name, moduleTimeLimit none name = 1200) := by
  refine ⟨?_, rfl, rfl, rfl, rfl, fun _ => rfl⟩
  intro config r db' h
  unfold startModule at h
  cases hgs : getSession db sid with
  | none =>
      rw [hgs] at h
      simp only [Prod.mk.injEq] at h
      exact absurd h.1 (fun hc => Except.noConfusion hc)
  | some s =>
      rw [hgs] at h
      dsimp only at h
      split_ifs at h <;> simp only [Prod.mk.injEq] at h
      · exact absurd h.1 (fun hc => Except.noConfusion hc)
      · exact absurd h.1 (fun hc => Except.noConfusion hc)
      · exact absurd h.1 (fun hc => Except.noConfusion hc)
      · exact absurd h.1 (fun hc => Except.noConfusion hc)
      · obtain ⟨h1, _⟩ := h
        injection h1 with hh
        rw [← hh]

/-- C9 amended witness: with the default configuration row, starting the
speaking module attaches the 180 s limit. -/
theorem startModule_timeLimit_witness :
    startModule freshStore 7 1 "speaking" (some "B1") (some defaultAdminSettings) true
      = (Except.ok ⟨1, "speaking", "B1", 180⟩, freshStore)
    ∧ (⟨1, "speaking", "B1", (180 : ℤ)⟩ : ModuleStartReply).timeLimit
        = moduleTimeLimit (some defaultAdminSettings) "speaking" := by
  have h : startModule freshStore 7 1 "speaking" (some "B1")
      (some defaultAdminSettings) true
      = (Except.ok ⟨1, "speaking", "B1", 180⟩, freshStore) := rfl
  exact ⟨h, (startModule_timeLimit freshStore 7 1 "speaking" (some "B1") true).1
    (some defaultAdminSettings) ⟨1, "speaking", "B1", 180⟩ freshStore h⟩

/-! ## C10: verify-otp only reads the stored code -/

/-- C10: verify-otp returns the cache unchanged on every path, so with a
stored unexpired code the call succeeds after any number of repetitions;
the code is deleted only by a successful register call — a failing register
leaves the whole state unchanged, and a successful one removes the key. -/
theorem verifyOtp_reads_only (r : Cache) (email code : String) (st : AuthState) :
    ((verifyOtp r email code).2 = r)
    ∧ (cacheGet r ("otp:" ++ email) = some code →
        ∀ n : Nat, (fun c => (verifyOtp c email code).2)^[n] r = r
          ∧ (verifyOtp ((fun c => (verifyOtp c email code).2)^[n] r) email code).1
              = Except.ok "Code verified.")
    ∧ (∀ e st', registerUser st email code = (Except.error e, st') → st' = st)
    ∧ (∀ uid st', registerUser st email code = (Except.ok uid, st') →
        cacheGet st'.cache ("otp:" ++ email) = none) := by
  have hid : (fun c => (verifyOtp c email code).2) = id := by
    funext c
    exact verifyOtp_cache_unchanged c email code
  refine ⟨verifyOtp_cache_unchanged r email code, ?_, ?_, ?_⟩
  · intro h n
    have hit : (fun c => (verifyOtp c email code).2)^[n] r = r := by
      rw [hid, Function.iterate_id]
      rfl
    refine ⟨hit, ?_⟩
    rw [hit]
    unfold verifyOtp
    rw [h]
    simp
  · intro e st' hreg
    unfold registerUser at hreg
    cases hc : cacheGet st.cache ("otp:" ++ email) with
    | none =>
        rw [hc] at hreg
        injection hreg with _ h2
        exact h2.symm
    | some stored =>
        rw [hc] at hreg
        dsimp only at hreg
        split_ifs at hreg
        · injection hreg with _ h2
          exact h2.symm
        · injection hreg with h1 _
          exact absurd h1 (fun hc' => Except.noConfusion hc')
  · intro uid st' hreg
    unfold registerUser at hreg
    cases hc : cacheGet st.cache ("otp:" ++ email) with
    | none =>
        rw [hc] at hreg
        injection hreg with h1 _
        exact absurd h1 (fun hc' => Except.noConfusion hc')
    | some stored =>
        rw [hc] at hreg
        dsimp only at hreg
        split_ifs at hreg
        · injection hreg with h1 _
          exact absurd h1 (fun hc' => Except.noConfusion hc')
        · injection hreg with _ h2
          rw [← h2]
          exact cacheGet_cacheDelete st.cache ("otp:" ++ email)

/-- C10 witness: a stored code verifies three times in a row without
changing the cache, and a successful register deletes it. -/
theorem verifyOtp_reads_only_witness :
    cacheGet [("otp:a@b.c", "123456")] ("otp:" ++ "a@b.c") = some "123456"
    ∧ (fun c => (verifyOtp c "a@b.c" "123456").2)^[3] [("otp:a@b.c", "123456")]
        = [("otp:a@b.c", "123456")]
    ∧ (verifyOtp ((fun c => (verifyOtp c "a@b.c" "123456").2)^[3]
          [("otp:a@b.c", "123456")]) "a@b.c" "123456").1
        = Except.ok "Code verified."
    ∧ cacheGet (registerUser ⟨[], 1, [("otp:a@b.c", "123456")]⟩
          "a@b.c" "123456").2.cache ("otp:" ++ "a@b.c") = none := by
  have h := verifyOtp_reads_only [("otp:a@b.c", "123456")] "a@b.c" "123456"
    ⟨[], 1, [("otp:a@b.c", "123456")]⟩
  have hget : cacheGet [("otp:a@b.c", "123456")] ("otp:" ++ "a@b.c")
      = some "123456" := rfl
  obtain ⟨hit, hok⟩ := h.2.1 hget 3
  refine ⟨hget, hit, hok, ?_⟩
  exact h.2.2.2 1
    (registerUser ⟨[], 1, [("otp:a@b.c", "123456")]⟩ "a@b.c" "123456").2 rfl

end VirtualTest
